import Mathlib

/-!
# Verification of the tunesynctool track-identity and playlist-reconciliation core

Shallow embedding of the repository's core modules:

* `tunesynctool/utilities/normalization.py` (`clean_str`, `remove_parenthetical`,
  `extract_core_title` and the substitution tables),
* `tunesynctool/models/track.py` (`Track`, `__eq__`, `matches`),
* `tunesynctool/features/playlist_sync.py` (`find_missing_tracks`,
  `find_tracks_to_remove`, `sync`),
* `tunesynctool/features/track_matcher.py` (`TrackMatcher.find_match` and its
  five strategies).

Python strings are modelled as `List Char` (`PyStr`); Python `None` for an
optional string is `Option PyStr`.  The similarity scorer
(`calculate_str_similarity`, `calculate_int_closeness`) is not present in the
repository sources, so it is modelled from the specification (see the doc
comments on those definitions).  Floating point arithmetic is modelled by exact
rational arithmetic; Python's `round(x, 2)` is modelled as exact round half to
even at two decimals.
-/

set_option maxRecDepth 100000
set_option maxHeartbeats 1000000

namespace Tunesynctool

/-- Python `str` is modelled as a list of characters. -/
abbrev PyStr := List Char

/-- Whitespace test used by Python's default `str.split` and `str.strip`. -/
def pyIsWs (c : Char) : Bool := c.isWhitespace

/-- Single-character lower casing, as done by `str.lower` on the ASCII range. -/
def pyLowerChar (c : Char) : Char :=
  if 65 ≤ c.toNat ∧ c.toNat ≤ 90 then Char.ofNat (c.toNat + 32) else c

/-- `str.lower`. -/
def pyLower (l : PyStr) : PyStr := l.map pyLowerChar

/-- `str.strip` with no argument: drop leading and trailing whitespace. -/
def pyStrip (l : PyStr) : PyStr :=
  ((l.dropWhile pyIsWs).reverse.dropWhile pyIsWs).reverse

/-- Recursion core of `str.replace`: replaces every non-overlapping occurrence
of `old` scanning left to right, never rescanning already-substituted text.
The fuel argument dominates the length of the unscanned input. -/
def replaceFuel (old new : PyStr) : Nat → PyStr → PyStr
  | _, [] => []
  | 0, l => l
  | Nat.succ fuel, c :: rest =>
    if old.isPrefixOf (c :: rest) ∧ ¬old.isEmpty then
      new ++ replaceFuel old new fuel (List.drop (old.length - 1) rest)
    else
      c :: replaceFuel old new fuel rest

/-- `str.replace old new` (for the non-empty patterns used by the repository). -/
def pyReplace (l old new : PyStr) : PyStr := replaceFuel old new l.length l

/-- Recursion core of `str.split()` (split on whitespace runs, dropping empty
pieces); `acc` holds the characters of the current word, reversed. -/
def pySplitAux : PyStr → PyStr → List PyStr
  | [], acc => if acc.isEmpty then [] else [acc.reverse]
  | c :: rest, acc =>
    if pyIsWs c then
      if acc.isEmpty then pySplitAux rest []
      else acc.reverse :: pySplitAux rest []
    else pySplitAux rest (c :: acc)

/-- `str.split()` with no argument. -/
def pySplit (l : PyStr) : List PyStr := pySplitAux l []

/-- `' '.join ws`. -/
def joinWords : List PyStr → PyStr
  | [] => []
  | [w] => w
  | w :: ws => w ++ ' ' :: joinWords ws

/-- `__normalize_whitespace`: `' '.join(text.split())`. -/
def pyNormWs (l : PyStr) : PyStr := joinWords (pySplit l)

/-- Python's substring test `needle in hay`. -/
def pyInStr (needle hay : PyStr) : Bool :=
  (List.range (hay.length + 1)).any fun i => needle.isPrefixOf (hay.drop i)

/-- Python truthiness of an optional string (`None` and `''` are falsy). -/
def pyTruthyS : Option PyStr → Bool
  | none => false
  | some s => ¬s.isEmpty

/-- Python truthiness of an optional integer (`None` and `0` are falsy). -/
def pyTruthyI : Option Int → Bool
  | none => false
  | some n => n ≠ 0

/-- The apostrophe character. -/
def chApos : Char := Char.ofNat 39

/-- The double-quote character. -/
def chQuote : Char := Char.ofNat 34

/-- The backslash character. -/
def chBackslash : Char := Char.ofNat 92

/-- The bullet separator `•` used by some music services. -/
def chBullet : Char := Char.ofNat 8226

/-- The middle dot `·`. -/
def chMidDot : Char := Char.ofNat 183

/-- `ARTIST_FEATURES` substitution table, in insertion order. -/
def artistFeatures : List (PyStr × PyStr) :=
  [ (['f','e','a','t','u','r','i','n','g'], [' '])
  , (['w','i','t','h'], [])
  , (['f','e','a','t','.'], [])
  , (['f','e','a','t'], [])
  , (['f','t','.'], [])
  , (['f','t'], [])
  , (['p','r','o','d','.',' '], [])
  , (['p','r','o','d',' '], []) ]

/-- `CONJUNCTIONS` substitution table. -/
def conjunctions : List (PyStr × PyStr) :=
  [ (['&'], ['a','n','d'])
  , (['+'], ['a','n','d']) ]

/-- `BRACKETS` substitution table, in insertion order. -/
def bracketsTable : List (PyStr × PyStr) :=
  [ (['['], []), ([']'], []), (['('], []), ([')'], []) ]

/-- `PUNCTUATION` substitution table, in insertion order. -/
def punctuationTable : List (PyStr × PyStr) :=
  [ ([chApos], [])
  , ([chQuote], [])
  , (['!'], [])
  , (['?'], [])
  , (['/'], [' '])
  , ([chBackslash], [' '])
  , (['_'], [' '])
  , (['-'], [' '])
  , (['.'], [' '])
  , ([','], [])
  , ([';'], [])
  , ([':'], [])
  , ([chBullet], [' '])
  , ([chMidDot], [' ']) ]

/-- `__apply_substitutions`: apply an ordered table of replacements. -/
def applySubsts (tbl : List (PyStr × PyStr)) (l : PyStr) : PyStr :=
  tbl.foldl (fun t p => pyReplace t p.1 p.2) l

/-- The four substitution passes of `clean_str`, in application order. -/
def applyAllSubsts (l : PyStr) : PyStr :=
  applySubsts punctuationTable
    (applySubsts bracketsTable
      (applySubsts conjunctions
        (applySubsts artistFeatures l)))

/-- `clean_str` on the character-list representation. -/
def cleanChars (l : PyStr) : PyStr :=
  if l.isEmpty then []
  else pyNormWs (applyAllSubsts (pyStrip (pyLower l)))

/-- `clean_str` on an optional string (`if not s: return ''`). -/
def clean_str : Option PyStr → PyStr
  | none => []
  | some l => cleanChars l

/-- Drop everything up to and including the first occurrence of `cl`;
`none` if `cl` does not occur. -/
def dropThroughFirst (cl : Char) : PyStr → Option PyStr
  | [] => none
  | c :: r => if c = cl then some r else dropThroughFirst cl r

/-- Recursion core of `re.sub(r'\(DELIM[^)]*\)', '', s)`: each match runs from a
left delimiter to the first following right delimiter.  If a left delimiter has
no following right delimiter, no further match is possible and the rest of the
string is kept verbatim. -/
def removeDelimFuel (op cl : Char) : Nat → PyStr → PyStr
  | _, [] => []
  | 0, l => l
  | Nat.succ fuel, c :: rest =>
    if c = op then
      match dropThroughFirst cl rest with
      | some after => removeDelimFuel op cl fuel after
      | none => c :: rest
    else c :: removeDelimFuel op cl fuel rest

/-- One delimiter-removal pass. -/
def removeDelim (op cl : Char) (l : PyStr) : PyStr := removeDelimFuel op cl l.length l

/-- `remove_parenthetical`: strip `(...)` then `[...]` content, then `strip()`. -/
def remove_parenthetical : Option PyStr → PyStr
  | none => []
  | some l => pyStrip (removeDelim '[' ']' (removeDelim '(' ')' l))

/-- The version/remix keyword vocabulary of `extract_core_title`, lower-cased. -/
def versionKeywords : List PyStr :=
  [ ['e','d','i','t']
  , ['r','e','m','i','x']
  , ['m','i','x']
  , ['v','e','r','s','i','o','n']
  , ['r','e','m','a','s','t','e','r']
  , ['l','i','v','e']
  , ['a','c','o','u','s','t','i','c']
  , ['i','n','s','t','r','u','m','e','n','t','a','l'] ]

/-- Python's `\w` on the ASCII range. -/
def isWordChar (c : Char) : Bool := c.isAlphanum || c = '_'

/-- Does one of the version keywords match (case-insensitively) at offset `b` of
`seg`, with a word boundary after it?  (Keywords begin with a letter, so the
boundary before the keyword is the responsibility of the caller.) -/
def versionKeywordAt (seg : PyStr) (b : Nat) : Bool :=
  versionKeywords.any fun kw =>
    kw.isPrefixOf ((seg.drop b).map pyLowerChar) &&
    (match seg.drop (b + kw.length) with
     | [] => true
     | c :: _ => ¬isWordChar c)

/-- Existence of a match of the tail `\s*.+?\b(?:KEYWORDS)\b` of the version
pattern against `seg`, the text following a dash: some whitespace prefix of
length `a`, then at least one non-newline character up to `b`, then a keyword
at `b` preceded by a non-word character (the regex `\b`: keywords start with a
letter) and followed by a word boundary. -/
def postDashMatch (seg : PyStr) : Bool :=
  (List.range (seg.length + 1)).any fun a =>
    (List.range (seg.length + 1)).any fun b =>
      a + 1 ≤ b &&
      (seg.take a).all pyIsWs &&
      ((seg.drop a).take (b - a)).all (fun c => c ≠ '\n') &&
      (match seg.drop (b - 1) with
       | [] => false
       | c :: _ => ¬isWordChar c) &&
      versionKeywordAt seg b

/-- Index of the first `-` whose right context matches the version pattern, if
any.  `re.split` with this pattern truncates before the leftmost match; its
leading `\s*` only widens the match into preceding whitespace, which the final
`strip()` discards anyway, so the prefix up to the dash itself is kept. -/
def firstVersionDash (t : PyStr) : Option Nat :=
  (List.range t.length).find? fun j =>
    (t.drop j).head? = some '-' && postDashMatch (t.drop (j + 1))

/-- `extract_core_title`. -/
def extract_core_title : Option PyStr → PyStr
  | none => []
  | some l =>
    if l.isEmpty then []
    else
      let t := remove_parenthetical (some l)
      match firstVersionDash t with
      | some j => pyStrip (t.take j)
      | none => pyStrip t

/-- `clean_str(extract_core_title(s))`, the "cleaned core title" used by both
`Track.matches` and the synchronizer. -/
def cleanCore (s : Option PyStr) : PyStr := cleanChars (extract_core_title s)

/-- One row-update step of the longest-common-subsequence dynamic program:
`prev` is the tail of the previous row aligned with the suffix of `ys` being
processed, `cur` is the value immediately to the left in the new row. -/
def lcsStep (x : Char) : PyStr → List Nat → Nat → List Nat
  | [], _, _ => []
  | _ :: _, [], _ => []
  | y :: ys, pj :: prest, cur =>
    let up := match prest with
      | [] => 0
      | q :: _ => q
    let v := if x = y then pj + 1 else max cur up
    v :: lcsStep x ys prest v

/-- Length of a longest common subsequence, by iterated row updates. -/
def lcsLen (xs ys : PyStr) : Nat :=
  (xs.foldl (fun row x => 0 :: lcsStep x ys row 0) (List.replicate (ys.length + 1) 0)).getLastD 0

/-- Modelled from the spec: the source file defining `calculate_str_similarity`
is absent from `src/` (only `tunesynctool/utilities/normalization.py` is
present).  §4.2: a normalized sequence-alignment similarity in `[0,1]` over two
already-cleaned strings; empty vs non-empty compares as `0`, two empties as
`1`; symmetric with `sim(x,x) = 1`.  Realized as the sequence-alignment
measure `2·LCS(a,b) / (|a|+|b|)`. -/
def calculate_str_similarity (a b : PyStr) : ℚ :=
  if a.isEmpty && b.isEmpty then 1
  else (2 * (lcsLen a b : ℚ)) / ((a.length : ℚ) + (b.length : ℚ))

/-- Python's binary `max` on rationals (`max(a, b)` returns `b` only when
`b > a`); written as an explicit conditional so that it evaluates by kernel
reduction. -/
def pyMax (a b : ℚ) : ℚ := if a < b then b else a

/-- Modelled from the spec: the source file defining `calculate_int_closeness`
is absent from `src/`.  §4.2: `1` if either value is absent, else a function of
`|a-b|` that is monotonically non-increasing, `1` at difference `0`, and `0`
beyond a reasonable divergence bound (tens of units).  Realized with bound 30. -/
def calculate_int_closeness : Option Int → Option Int → ℚ
  | some a, some b => pyMax 0 (1 - (|a - b| : ℚ) / 30)
  | _, _ => 1

/-- `models/track.py` `Track`.  `service_data` is an opaque payload. -/
structure Track where
  title : Option PyStr := none
  album_name : Option PyStr := none
  primary_artist : Option PyStr := none
  additional_artists : List PyStr := []
  duration_seconds : Option Int := none
  track_number : Option Int := none
  release_year : Option Int := none
  isrc : Option PyStr := none
  musicbrainz_id : Option PyStr := none
  service_id : Option PyStr := none
  service_name : PyStr := ['u','n','k','n','o','w','n']
  service_data : List (PyStr × PyStr) := []
  deriving DecidableEq, Repr, Inhabited

/-- `Track.__eq__` against a non-`None` other: primitive identity on
`(service_id, service_name)`. -/
def trackPrimEq (a b : Track) : Bool :=
  a.service_id = b.service_id ∧ a.service_name = b.service_name

/-- The strong-identifier ISRC short-circuit guard of `Track.matches`. -/
def isrcShortCircuit (a b : Track) : Bool :=
  pyTruthyS a.isrc && pyTruthyS b.isrc && a.isrc = b.isrc

/-- The strong-identifier MusicBrainz-ID short-circuit guard of `Track.matches`. -/
def mbidShortCircuit (a b : Track) : Bool :=
  pyTruthyS a.musicbrainz_id && pyTruthyS b.musicbrainz_id &&
    a.musicbrainz_id = b.musicbrainz_id

/-- `max(title_similarity, core_title_similarity)` in `Track.matches`. -/
def bestTitleSim (a b : Track) : ℚ :=
  pyMax (calculate_str_similarity (clean_str a.title) (clean_str b.title))
    (calculate_str_similarity (cleanCore a.title) (cleanCore b.title))

/-- Raw `artist_similarity` of `Track.matches` (before the word-overlap boost). -/
def artistSim (a b : Track) : ℚ :=
  calculate_str_similarity (clean_str a.primary_artist) (clean_str b.primary_artist)

/-- The word-overlap test: the whitespace-token sets of the two cleaned artist
strings intersect. -/
def artistWordOverlap (a b : Track) : Bool :=
  (pySplit (clean_str a.primary_artist)).any fun w =>
    (pySplit (clean_str b.primary_artist)).contains w

/-- Exact round-half-to-even of a rational to an integer.  Python's
`round(x, 2)` rounds a float half to even; it is modelled exactly on `ℚ`. -/
def roundHalfEven (q : ℚ) : ℤ :=
  let n := q.floor
  let f := q - (n : ℚ)
  if f < 1 / 2 then n
  else if 1 / 2 < f then n + 1
  else if n % 2 = 0 then n else n + 1

/-- `round(x, 2)`. -/
def pyRound2 (q : ℚ) : ℚ := (roundHalfEven (q * 100) : ℚ) / 100

/-- The weighted blend of `Track.matches` (`variables` over `weights`),
parameterized by the title and artist similarities in force.  The `year`
weight is gated on `track_number` exactly as in the source. -/
def blendScore (a b : Track) (titleS artistS : ℚ) : ℚ :=
  let wAlbum : ℚ := if pyTruthyS a.album_name && pyTruthyS b.album_name then 125 / 100 else 75 / 100
  let wTrack : ℚ := if pyTruthyI a.track_number && pyTruthyI b.track_number then 1 / 2 else 0
  let wYear : ℚ := if pyTruthyI a.track_number && pyTruthyI b.track_number then 1 / 2 else 0
  let total :=
    titleS * 4 + artistS * (5 / 2) +
    calculate_str_similarity (clean_str a.album_name) (clean_str b.album_name) * wAlbum +
    calculate_int_closeness a.duration_seconds b.duration_seconds * (3 / 4) +
    calculate_int_closeness a.track_number b.track_number * wTrack +
    calculate_int_closeness a.release_year b.release_year * wYear
  total / (4 + 5 / 2 + wAlbum + 3 / 4 + wTrack + wYear)

/-- `Track.matches(self, other, threshold)`. -/
def track_matches (self : Track) (other : Option Track) (threshold : ℚ) : Bool :=
  match other with
  | none => false
  | some other =>
    if isrcShortCircuit self other then true
    else if mbidShortCircuit self other then true
    else
      let best := bestTitleSim self other
      let artist := artistSim self other
      if best < 65 / 100 then false
      else if artist < 1 / 2 then
        if 85 / 100 ≤ best then
          if artistWordOverlap self other then
            decide (threshold ≤ pyRound2 (blendScore self other best (7 / 10)))
          else false
        else false
      else decide (threshold ≤ pyRound2 (blendScore self other best artist))

/-- The inline core-title/artist similarity test of
`PlaylistSynchronizer.find_missing_tracks` (duplicated verbatim in `sync`):
core-title similarity at least `0.85` and artist similarity at least `0.5`
after the word-overlap boost to `0.7`. -/
def inlineVersionTest (s t : Track) : Bool :=
  let titleS := calculate_str_similarity (cleanCore s.title) (cleanCore t.title)
  let artistS0 := artistSim s t
  let artistS := if artistS0 < 1 / 2 then
      (if artistWordOverlap s t then (7 : ℚ) / 10 else artistS0)
    else artistS0
  decide (85 / 100 ≤ titleS) && decide (1 / 2 ≤ artistS)

/-- Inner loop of `find_missing_tracks`: scan the target list, breaking at the
first entry accepted by `matches` (default threshold) or by the inline test. -/
def anyTargetSatisfies (s : Track) : List Track → Bool
  | [] => false
  | t :: rest =>
    if track_matches s (some t) (3 / 4) then true
    else if inlineVersionTest s t then true
    else anyTargetSatisfies s rest

/-- `PlaylistSynchronizer.find_missing_tracks` (the `debug` flag only prints). -/
def find_missing_tracks (src tgt : List Track) : List Track :=
  match src with
  | [] => []
  | s :: rest =>
    if anyTargetSatisfies s tgt then find_missing_tracks rest tgt
    else s :: find_missing_tracks rest tgt

/-- `PlaylistSynchronizer.find_tracks_to_remove`: the same algorithm with the
two lists swapped. -/
def find_tracks_to_remove (src tgt : List Track) : List Track :=
  find_missing_tracks tgt src

/-- Exceptions that driver collaborators may raise: `TrackNotFoundException`
(& kin), `UnsupportedFeatureException`, and anything else (network/auth). -/
inductive DriverError where
  | notFound
  | unsupported
  | otherFailure
  deriving DecidableEq, Repr

/-- The abstract catalog/driver capability consumed by the matcher (§6). -/
structure Driver where
  service_name : PyStr
  supports_direct_isrc_querying : Bool
  supports_musicbrainz_id_querying : Bool
  get_track : Option PyStr → Except DriverError Track
  get_track_by_isrc : Option PyStr → Except DriverError Track
  search_tracks : PyStr → Nat → Except DriverError (List Track)

/-- The external MusicBrainz resolution collaborator
(`Musicbrainz.id_from_track`). -/
abbrev MbResolver := Track → Option PyStr

/-- `TrackMatcher.__search_on_origin_service`.  Note that the `get_track`
lookup is not wrapped in any `try`, so every exception it raises (including
`TrackNotFoundException`) propagates. -/
def search_on_origin_service (d : Driver) (track : Track) : Except DriverError (Option Track) :=
  if (¬track.service_name.isEmpty && ¬d.service_name.isEmpty) && track.service_name = d.service_name then
    match d.get_track track.service_id with
    | .error e => .error e
    | .ok m => if track_matches track (some m) (3 / 4) then .ok (some m) else .ok none
  else .ok none

/-- `TrackMatcher.__search_by_isrc_only`.  A `TrackNotFoundException` from
`get_track_by_isrc` is caught and treated as a negative result. -/
def search_by_isrc_only (d : Driver) (track : Track) : Except DriverError (Option Track) :=
  if ¬pyTruthyS track.isrc || ¬d.supports_direct_isrc_querying then .ok none
  else
    match d.get_track_by_isrc track.isrc with
    | .error DriverError.notFound => .ok none
    | .error e => .error e
    | .ok m => if track_matches track (some m) (3 / 4) then .ok (some m) else .ok none

/-- Deduplicated accumulation of search results by
`(service_id, service_name)`, preserving first-seen order. -/
def dedupAdd : List Track → List (Option PyStr × PyStr) → List Track →
    List (Option PyStr × PyStr) × List Track
  | [], seen, acc => (seen, acc)
  | r :: rest, seen, acc =>
    let key := (r.service_id, r.service_name)
    if seen.contains key then dedupAdd rest seen acc
    else dedupAdd rest (key :: seen) (acc ++ [r])

/-- Issue each query in turn against the text-search collaborator, with a
per-query result cap, deduplicating across queries. -/
def collectSearch (d : Driver) (limitOf : PyStr → Nat) :
    List PyStr → List (Option PyStr × PyStr) → List Track → Except DriverError (List Track)
  | [], _, acc => .ok acc
  | q :: qs, seen, acc =>
    if q.isEmpty then collectSearch d limitOf qs seen acc
    else
      match d.search_tracks q (limitOf q) with
      | .error e => .error e
      | .ok rs =>
        let p := dedupAdd rs seen acc
        collectSearch d limitOf qs p.1 p.2

/-- The up-to-five query variants of `TrackMatcher.__search_with_text`. -/
def textQueries (track : Track) : List PyStr :=
  let titleClean := clean_str track.title
  let artistClean := clean_str track.primary_artist
  let titleCore := cleanCore track.title
  (if ¬artistClean.isEmpty ∧ ¬titleClean.isEmpty then [artistClean ++ ' ' :: titleClean] else []) ++
  (if ¬artistClean.isEmpty ∧ ¬titleCore.isEmpty ∧ titleCore ≠ titleClean then [artistClean ++ ' ' :: titleCore] else []) ++
  (if ¬titleCore.isEmpty then [titleCore] else []) ++
  (if ¬titleClean.isEmpty ∧ titleClean ≠ titleCore then [titleClean] else []) ++
  (if ¬artistClean.isEmpty then [artistClean] else [])

/-- The per-query result cap of `TrackMatcher.__search_with_text`. -/
def textLimit (track : Track) (q : PyStr) : Nat :=
  let artistClean := clean_str track.primary_artist
  let titleCore := cleanCore track.title
  if ¬artistClean.isEmpty && pyInStr artistClean q && ¬titleCore.isEmpty && pyInStr titleCore q then 30
  else if ¬titleCore.isEmpty && pyInStr titleCore q && ¬pyInStr artistClean q then 50
  else 40

/-- `TrackMatcher.__search_with_text`. -/
def search_with_text (d : Driver) (track : Track) : Except DriverError (Option Track) :=
  match collectSearch d (textLimit track) (textQueries track) [] [] with
  | .error e => .error e
  | .ok results => .ok (results.find? fun r => track_matches track (some r) (3 / 4))

/-- `TrackMatcher.__get_musicbrainz_id`. -/
def get_musicbrainz_id (resolver : MbResolver) (track : Track) : Option PyStr :=
  if pyTruthyS track.musicbrainz_id then track.musicbrainz_id else resolver track

/-- Outcome part of `TrackMatcher.__search_with_musicbrainz_id`, evaluated on
the (already lazily populated) track: no id means a negative result; with an
id and an id-querying target, the single top search result is returned. -/
def swmiOutcome (d : Driver) (track : Track) : Except DriverError (Option Track) :=
  if ¬pyTruthyS track.musicbrainz_id then .ok none
  else if d.supports_musicbrainz_id_querying then
    match d.search_tracks (track.musicbrainz_id.getD []) 1 with
    | .error e => .error e
    | .ok [] => .ok none
    | .ok (r :: _) => .ok (some r)
  else .ok none

/-- `TrackMatcher.__search_with_musicbrainz_id`.  The only attribute write in
the matcher: a falsy `musicbrainz_id` is lazily populated on the track, so the
(possibly updated) track is returned alongside the lookup outcome. -/
def search_with_musicbrainz_id (d : Driver) (resolver : MbResolver) (track : Track) :
    Track × Except DriverError (Option Track) :=
  let track := if ¬pyTruthyS track.musicbrainz_id then
      { track with musicbrainz_id := get_musicbrainz_id resolver track }
    else track
  (track, swmiOutcome d track)

/-- `TrackMatcher.__search_with_lenient_matching`: three wide queries, first
result accepted by `matches` at the lowered threshold `0.60`. -/
def search_with_lenient_matching (d : Driver) (track : Track) : Except DriverError (Option Track) :=
  let core := cleanCore track.title
  let artist := clean_str track.primary_artist
  if core.isEmpty || artist.isEmpty then .ok none
  else
    match collectSearch d (fun _ => 50) [artist ++ ' ' :: core, core, artist] [] [] with
    | .error e => .error e
    | .ok results => .ok (results.find? fun r => track_matches track (some r) (60 / 100))

/-- `TrackMatcher.find_match`: the five-strategy cascade.  Returns the final
state of the query track (strategy 4 may have populated `musicbrainz_id`)
together with the outcome; an uncaught collaborator exception is an `error`. -/
def find_match (d : Driver) (resolver : MbResolver) (track : Track) :
    Track × Except DriverError (Option Track) :=
  match search_on_origin_service d track with
  | .error e => (track, .error e)
  | .ok m0 =>
  if track_matches track m0 (3 / 4) then (track, .ok m0) else
  match search_by_isrc_only d track with
  | .error e => (track, .error e)
  | .ok m1 =>
  if track_matches track m1 (3 / 4) then (track, .ok m1) else
  match search_with_text d track with
  | .error e => (track, .error e)
  | .ok m2 =>
  if track_matches track m2 (3 / 4) then (track, .ok m2) else
  match (search_with_musicbrainz_id d resolver track).2 with
  | .error e => ((search_with_musicbrainz_id d resolver track).1, .error e)
  | .ok m3 =>
  if track_matches (search_with_musicbrainz_id d resolver track).1 m3 (3 / 4) then
    ((search_with_musicbrainz_id d resolver track).1, .ok m3)
  else
  match search_with_lenient_matching d (search_with_musicbrainz_id d resolver track).1 with
  | .error e => ((search_with_musicbrainz_id d resolver track).1, .error e)
  | .ok (some r) => ((search_with_musicbrainz_id d resolver track).1, .ok (some r))
  | .ok none => ((search_with_musicbrainz_id d resolver track).1, .ok none)

/-- The full driver capability used by the synchronizer (§6). -/
structure ServiceDriver extends Driver where
  get_playlist_tracks : PyStr → Except DriverError (List Track)
  remove_tracks_from_playlist : PyStr → List (Option PyStr) → Except DriverError Unit
  add_tracks_to_playlist : PyStr → List (Option PyStr) → Except DriverError Unit

/-- A mutation request issued to the target driver by `sync`. -/
inductive MutationCall where
  | remove (playlistId : PyStr) (trackIds : List (Option PyStr))
  | add (playlistId : PyStr) (trackIds : List (Option PyStr))
  deriving DecidableEq, Repr

/-- Is the call an `add_tracks_to_playlist` invocation? -/
def MutationCall.isAdd : MutationCall → Bool
  | .add _ _ => true
  | .remove _ _ => false

/-- The per-source-track resolution loop of `sync`: take the first existing
target entry accepted by `matches` or the inline test, else ask the matcher;
source tracks with no counterpart anywhere are dropped. -/
def buildDesired (d : Driver) (resolver : MbResolver) (targetTracks : List Track) :
    List Track → Except DriverError (List Track)
  | [] => .ok []
  | s :: rest =>
    match targetTracks.find? (fun t => track_matches s (some t) (3 / 4) || inlineVersionTest s t) with
    | some t =>
      match buildDesired d resolver targetTracks rest with
      | .error e => .error e
      | .ok ds => .ok (t :: ds)
    | none =>
      match find_match d resolver s with
      | (_, .error e) => .error e
      | (_, .ok (some r)) =>
        match buildDesired d resolver targetTracks rest with
        | .error e => .error e
        | .ok ds => .ok (r :: ds)
      | (_, .ok none) => buildDesired d resolver targetTracks rest

/-- The clear-and-rebuild tail of `sync`: best-effort removal of all current
target entries (an `UnsupportedFeatureException` is swallowed), then a single
`add_tracks_to_playlist` call with the full resolved order.  Returns the
mutation calls issued and the outcome. -/
def syncRebuild (tgt : ServiceDriver) (tpid : PyStr) (targetTracks desired : List Track) :
    List MutationCall × Except DriverError Unit :=
  let removeLog : List MutationCall :=
    if targetTracks.isEmpty then []
    else [MutationCall.remove tpid (targetTracks.map Track.service_id)]
  let removeRes : Except DriverError Unit :=
    if targetTracks.isEmpty then .ok ()
    else
      match tgt.remove_tracks_from_playlist tpid (targetTracks.map Track.service_id) with
      | .error DriverError.unsupported => .ok ()
      | r => r
  match removeRes with
  | .error e => (removeLog, .error e)
  | .ok _ =>
    if desired.isEmpty then (removeLog, .ok ())
    else
      (removeLog ++ [MutationCall.add tpid (desired.map Track.service_id)],
       tgt.add_tracks_to_playlist tpid (desired.map Track.service_id))

/-- `PlaylistSynchronizer.sync`: fetch both playlists, resolve the desired
order, clear the target, re-populate in one call. -/
def sync (src tgt : ServiceDriver) (resolver : MbResolver) (spid tpid : PyStr) :
    List MutationCall × Except DriverError Unit :=
  match src.get_playlist_tracks spid with
  | .error e => ([], .error e)
  | .ok sourceTracks =>
    match tgt.get_playlist_tracks tpid with
    | .error e => ([], .error e)
    | .ok targetTracks =>
      match buildDesired tgt.toDriver resolver targetTracks sourceTracks with
      | .error e => ([], .error e)
      | .ok desired => syncRebuild tgt tpid targetTracks desired

/-- Is the outcome a raised `TrackNotFoundException`? -/
def isNotFoundFailure {α : Type} : Except DriverError α → Bool
  | .error DriverError.notFound => true
  | _ => false

/-! Concrete fixtures used by the closed witness and counterexample theorems. -/

/-- Fixture: a track carrying an ISRC, with tiny metadata. -/
def fixIsrcA : Track :=
  { title := some ['a'], primary_artist := some ['p'], isrc := some ['i']
  , service_id := some ['1'], service_name := ['s','p'] }

/-- Fixture: a metadata-divergent track sharing `fixIsrcA`'s ISRC. -/
def fixIsrcB : Track :=
  { title := some ['z','z'], primary_artist := some ['q'], isrc := some ['i']
  , service_id := some ['2'], service_name := ['s','b'], track_number := some 9 }

/-- Fixture: a bare track with a one-letter title. -/
def fixLowA : Track := { title := some ['a'], primary_artist := some ['p'] }

/-- Fixture: a bare track whose title shares nothing with `fixLowA`'s. -/
def fixLowB : Track := { title := some ['z'], primary_artist := some ['p'] }

/-- Fixture: equal titles, artist disjoint from `fixGateB`'s. -/
def fixGateA : Track := { title := some ['a','b'], primary_artist := some ['x'] }

/-- Fixture: equal titles, artist disjoint from `fixGateA`'s. -/
def fixGateB : Track := { title := some ['a','b'], primary_artist := some ['q'] }

/-- Fixture: source track for the `find_missing_tracks` counterexample — its
ISRC equals `c1T`'s but every metadata field and the primitive identity
diverge. -/
def c1S : Track :=
  { title := some ['a','a','a','a'], primary_artist := some ['b','b']
  , isrc := some ['x'], service_id := some ['1'], service_name := ['s','p'] }

/-- Fixture: target-side track sharing only `c1S`'s ISRC. -/
def c1T : Track :=
  { title := some ['z','z','z','z'], primary_artist := some ['c','c']
  , isrc := some ['x'], service_id := some ['2'], service_name := ['s','b'] }

/-- Fixture: a driver whose `get_track` lookup raises
`TrackNotFoundException`. -/
def c2Driver : Driver :=
  { service_name := ['s']
  , supports_direct_isrc_querying := true
  , supports_musicbrainz_id_querying := false
  , get_track := fun _ => .error DriverError.notFound
  , get_track_by_isrc := fun _ => .error DriverError.notFound
  , search_tracks := fun _ _ => .ok [] }

/-- Fixture: a track that appears to originate from `c2Driver`'s own service. -/
def c2Track : Track := { title := some ['a'], service_id := some ['x'], service_name := ['s'] }

/-- Fixture: a MusicBrainz resolver that never finds an id. -/
def noResolver : MbResolver := fun _ => none

/-- Fixture: the catalog-side counterpart found by ISRC lookup. -/
def c10Target : Track :=
  { title := some ['t'], primary_artist := some ['p'], isrc := some ['i']
  , service_id := some ['9'], service_name := ['t','g'] }

/-- Fixture: the query track for the confirmed-result witness. -/
def c10Query : Track :=
  { title := some ['t'], primary_artist := some ['p'], isrc := some ['i']
  , service_id := some ['1'], service_name := ['s','p'] }

/-- Fixture: a driver that answers ISRC lookups with `c10Target`. -/
def c10Driver : Driver :=
  { service_name := ['t','g']
  , supports_direct_isrc_querying := true
  , supports_musicbrainz_id_querying := false
  , get_track := fun _ => .error DriverError.notFound
  , get_track_by_isrc := fun _ => .ok c10Target
  , search_tracks := fun _ _ => .ok [] }

/-- Fixture: source-playlist track for the `sync` witness. -/
def c7SourceTrack : Track :=
  { title := some ['a'], primary_artist := some ['p'], isrc := some ['i']
  , service_id := some ['1'], service_name := ['s','p'] }

/-- Fixture: target-playlist counterpart of `c7SourceTrack` (same ISRC). -/
def c7TargetTrack : Track :=
  { title := some ['a'], primary_artist := some ['p'], isrc := some ['i']
  , service_id := some ['2'], service_name := ['t','g'] }

/-- Fixture: source-side service driver for the `sync` witness. -/
def c7Src : ServiceDriver :=
  { service_name := ['s','p']
  , supports_direct_isrc_querying := false
  , supports_musicbrainz_id_querying := false
  , get_track := fun _ => .error DriverError.notFound
  , get_track_by_isrc := fun _ => .error DriverError.notFound
  , search_tracks := fun _ _ => .ok []
  , get_playlist_tracks := fun _ => .ok [c7SourceTrack]
  , remove_tracks_from_playlist := fun _ _ => .ok ()
  , add_tracks_to_playlist := fun _ _ => .ok () }

/-- All characters of a string are fixed points of `pyLowerChar` (i.e. the
string is already lower-case). -/
def lowerFixed (l : PyStr) : Prop := ∀ c ∈ l, pyLowerChar c = c

/-- A word produced by `str.split()`: non-empty and whitespace-free. -/
def wordOk (w : PyStr) : Prop := w ≠ [] ∧ ∀ c ∈ w, pyIsWs c = false

/-- Fixture: target-side service driver whose removal capability raises
`UnsupportedFeatureException`. -/
def c7Tgt : ServiceDriver :=
  { service_name := ['t','g']
  , supports_direct_isrc_querying := false
  , supports_musicbrainz_id_querying := false
  , get_track := fun _ => .error DriverError.notFound
  , get_track_by_isrc := fun _ => .error DriverError.notFound
  , search_tracks := fun _ _ => .ok []
  , get_playlist_tracks := fun _ => .ok [c7TargetTrack]
  , remove_tracks_from_playlist := fun _ _ => .error DriverError.unsupported
  , add_tracks_to_playlist := fun _ _ => .ok () }

end Tunesynctool

namespace Tunesynctool

/-- C4: if both tracks carry a non-empty equal `isrc`, or both carry a
non-empty equal `musicbrainz_id`, `matches` returns true immediately,
regardless of every other field and of the threshold. -/
theorem claim_C4_strong_identifiers (a b : Track) (threshold : ℚ)
    (h : isrcShortCircuit a b = true ∨ mbidShortCircuit a b = true) :
    track_matches a (some b) threshold = true := by
  unfold track_matches
  rcases h with h | h
  · simp [h]
  · cases hi : isrcShortCircuit a b <;> simp [hi, h]

/-- Witness for C4 at concrete tracks with equal ISRCs and otherwise
divergent metadata, at the maximal threshold `1`. -/
theorem claim_C4_strong_identifiers_witness :
    track_matches fixIsrcA (some fixIsrcB) 1 = true :=
  claim_C4_strong_identifiers fixIsrcA fixIsrcB 1 (Or.inl (by decide))

/-- C5: when neither strong-identifier short-circuit applies and the best
title similarity is below `0.65`, `matches` returns false for every
threshold. -/
theorem claim_C5_title_gate (a b : Track) (threshold : ℚ)
    (h1 : isrcShortCircuit a b = false) (h2 : mbidShortCircuit a b = false)
    (h3 : bestTitleSim a b < 65 / 100) :
    track_matches a (some b) threshold = false := by
  unfold track_matches
  simp only [h1, h2, Bool.false_eq_true, if_false]
  rw [if_pos h3]

/-- Witness for C5 at concrete tracks with disjoint one-letter titles. -/
theorem claim_C5_title_gate_witness :
    track_matches fixLowA (some fixLowB) 0 = false :=
  claim_C5_title_gate fixLowA fixLowB 0 (by decide) (by decide)
    (by with_unfolding_all decide)

/-- C6: on the fuzzy path with best title similarity at least `0.65` and raw
artist similarity below `0.5`: with best title at least `0.85` and overlapping
artist word sets the blend uses artist similarity exactly `0.7`; with best
title at least `0.85` and no overlap `matches` is false; and with best title
below `0.85` it is false without attempting the word-overlap rescue. -/
theorem claim_C6_artist_soft_gate (a b : Track) (threshold : ℚ)
    (h1 : isrcShortCircuit a b = false) (h2 : mbidShortCircuit a b = false)
    (h3 : 65 / 100 ≤ bestTitleSim a b) (h4 : artistSim a b < 1 / 2) :
    (artistWordOverlap a b = true → 85 / 100 ≤ bestTitleSim a b →
      track_matches a (some b) threshold
        = decide (threshold ≤ pyRound2 (blendScore a b (bestTitleSim a b) (7 / 10)))) ∧
    (artistWordOverlap a b = false → 85 / 100 ≤ bestTitleSim a b →
      track_matches a (some b) threshold = false) ∧
    (bestTitleSim a b < 85 / 100 → track_matches a (some b) threshold = false) := by
  unfold track_matches
  simp only [h1, h2, Bool.false_eq_true, if_false]
  rw [if_neg (not_lt.mpr h3), if_pos h4]
  refine ⟨fun hov hbest => ?_, fun hov hbest => ?_, fun hbest => ?_⟩
  · rw [if_pos hbest, if_pos hov]
  · rw [if_pos hbest, if_neg]
    simp [hov]
  · rw [if_neg (not_le.mpr hbest)]

/-- Witness for C6 at concrete tracks with equal titles and disjoint
one-letter artists: no word overlap, so `matches` rejects. -/
theorem claim_C6_artist_soft_gate_witness :
    track_matches fixGateA (some fixGateB) (3 / 4) = false :=
  (claim_C6_artist_soft_gate fixGateA fixGateB (3 / 4)
    (by decide) (by decide) (by with_unfolding_all decide)
    (by with_unfolding_all decide)).2.1
    (by decide) (by with_unfolding_all decide)

/-- The inner scan of `find_missing_tracks` accepts exactly when some target
entry passes `matches` at the default threshold or the inline test. -/
theorem anyTargetSatisfies_eq_any (s : Track) (tgt : List Track) :
    anyTargetSatisfies s tgt
      = tgt.any fun t => track_matches s (some t) (3 / 4) || inlineVersionTest s t := by
  induction tgt with
  | nil => rfl
  | cons t rest ih =>
    unfold anyTargetSatisfies
    by_cases h1 : track_matches s (some t) (3 / 4) = true <;>
      by_cases h2 : inlineVersionTest s t = true <;>
        simp [h1, h2, ih]

/-- `find_missing_tracks` is a per-source-element filter: each source entry is
judged against the full, unchanged target list. -/
theorem find_missing_tracks_eq_filter (src tgt : List Track) :
    find_missing_tracks src tgt = src.filter fun s => !anyTargetSatisfies s tgt := by
  induction src with
  | nil => rfl
  | cons s rest ih =>
    unfold find_missing_tracks
    by_cases h : anyTargetSatisfies s tgt = true <;> simp [h, ih, List.filter_cons]

/-- C1 counterexample: `c1S` is excluded from the missing list (it is counted
as present) although no target track satisfies primitive equality with it and
none passes the inline similarity test — presence came from the ISRC
short-circuit inside `Track.matches`, a test the claim does not admit. -/
theorem claim_C1_counterexample :
    find_missing_tracks [c1S] [c1T] = [] ∧ trackPrimEq c1S c1T = false ∧
      inlineVersionTest c1S c1T = false :=
  ⟨by decide, by decide, by with_unfolding_all decide⟩

/-- C1 (amended): a source track is counted as present (excluded from the
missing list) iff some target track passes `Track.matches` at the default
threshold `0.75` — which includes the strong-identifier short-circuits and the
weighted blend — or passes the inline similarity test; primitive equality is
not consulted. -/
theorem claim_C1_presence_criterion (src tgt : List Track) (s : Track) (hs : s ∈ src) :
    s ∉ find_missing_tracks src tgt ↔
      ∃ t ∈ tgt, track_matches s (some t) (3 / 4) = true ∨ inlineVersionTest s t = true := by
  have hfilter : s ∈ find_missing_tracks src tgt ↔ anyTargetSatisfies s tgt = false := by
    rw [find_missing_tracks_eq_filter, List.mem_filter]
    simp [hs]
  rw [hfilter, anyTargetSatisfies_eq_any]
  simp only [Bool.not_eq_false, List.any_eq_true, Bool.or_eq_true]

/-- Witness for C1 (amended) at the concrete ISRC-sharing fixture pair. -/
theorem claim_C1_presence_criterion_witness :
    c1S ∉ find_missing_tracks [c1S] [c1T] ↔
      ∃ t ∈ [c1T], track_matches c1S (some t) (3 / 4) = true ∨ inlineVersionTest c1S t = true :=
  claim_C1_presence_criterion [c1S] [c1T] c1S (by decide)

/-- C8: the missing list is a subsequence of the source list (source order is
preserved); the computation is an elementwise filter against the full,
never-mutated target list, so each source duplicate is checked independently
and one target track may satisfy any number of duplicate source entries (the
decision for a block of sources splits pointwise over list append). -/
theorem claim_C8_source_order_and_duplicates (src xs ys tgt : List Track) :
    (find_missing_tracks src tgt).Sublist src ∧
    find_missing_tracks src tgt = src.filter (fun s => !anyTargetSatisfies s tgt) ∧
    find_missing_tracks (xs ++ ys) tgt
      = find_missing_tracks xs tgt ++ find_missing_tracks ys tgt := by
  refine ⟨?_, find_missing_tracks_eq_filter src tgt, ?_⟩
  · rw [find_missing_tracks_eq_filter]
    exact List.filter_sublist src
  · rw [find_missing_tracks_eq_filter, find_missing_tracks_eq_filter,
      find_missing_tracks_eq_filter, List.filter_append]

/-- C2 counterexample: with a target driver whose `get_track` raises
`TrackNotFoundException` and a track that appears to originate from the
target's own service, the origin-service strategy does not catch the
exception and `find_match` propagates it to the caller. -/
theorem claim_C2_counterexample :
    (find_match c2Driver noResolver c2Track).2 = Except.error DriverError.notFound := rfl

/-- C2 (amended): only the ISRC-only strategy recovers a not-found condition:
`search_by_isrc_only` never lets `TrackNotFoundException` escape, for every
driver behaviour and every track; `get_track` in the origin-service strategy
enjoys no such protection (see the counterexample). -/
theorem claim_C2_isrc_not_found_recovered (d : Driver) (track : Track) :
    isNotFoundFailure (search_by_isrc_only d track) = false := by
  unfold search_by_isrc_only
  split
  · rfl
  · cases hres : d.get_track_by_isrc track.isrc with
    | error e =>
      cases e <;> simp [hres, isNotFoundFailure]
    | ok m =>
      by_cases hm : track_matches track (some m) (3 / 4) = true <;>
        simp [hres, hm, isNotFoundFailure]

/-- The track component returned by the MusicBrainz strategy: unchanged when
`musicbrainz_id` was already truthy, else updated in that single field. -/
theorem search_with_musicbrainz_id_fst (d : Driver) (resolver : MbResolver) (track : Track) :
    (search_with_musicbrainz_id d resolver track).1
      = if pyTruthyS track.musicbrainz_id = true then track
        else { track with musicbrainz_id := get_musicbrainz_id resolver track } := by
  unfold search_with_musicbrainz_id
  by_cases h : pyTruthyS track.musicbrainz_id = true <;> simp [h]

/-- `find_match` returns either the unchanged input track or the track as
updated by the MusicBrainz strategy. -/
theorem find_match_fst (d : Driver) (resolver : MbResolver) (track : Track) :
    (find_match d resolver track).1 = track ∨
      (find_match d resolver track).1 = (search_with_musicbrainz_id d resolver track).1 := by
  unfold find_match
  cases h0 : search_on_origin_service d track with
  | error e => exact Or.inl rfl
  | ok m0 =>
    dsimp only
    by_cases hm0 : track_matches track m0 (3 / 4) = true
    · rw [if_pos hm0]; exact Or.inl rfl
    · rw [if_neg hm0]
      cases h1 : search_by_isrc_only d track with
      | error e => exact Or.inl rfl
      | ok m1 =>
        dsimp only
        by_cases hm1 : track_matches track m1 (3 / 4) = true
        · rw [if_pos hm1]; exact Or.inl rfl
        · rw [if_neg hm1]
          cases h2 : search_with_text d track with
          | error e => exact Or.inl rfl
          | ok m2 =>
            dsimp only
            by_cases hm2 : track_matches track m2 (3 / 4) = true
            · rw [if_pos hm2]; exact Or.inl rfl
            · rw [if_neg hm2]
              cases h3 : (search_with_musicbrainz_id d resolver track).2 with
              | error e => exact Or.inr rfl
              | ok m3 =>
                dsimp only
                by_cases hm3 : track_matches (search_with_musicbrainz_id d resolver track).1 m3 (3 / 4) = true
                · rw [if_pos hm3]; exact Or.inr rfl
                · rw [if_neg hm3]
                  cases h4 : search_with_lenient_matching d (search_with_musicbrainz_id d resolver track).1 with
                  | error e => exact Or.inr rfl
                  | ok m4 =>
                    cases m4 with
                    | none => exact Or.inr rfl
                    | some r => exact Or.inr rfl

/-- C9: `find_match` modifies no field of its argument other than
`musicbrainz_id` — title, album, artists, duration, track number, year, ISRC,
service id/name/data are all unchanged — and `musicbrainz_id` itself is never
overwritten once truthy (it is only lazily populated when previously absent
or empty). -/
theorem claim_C9_frame_effect (d : Driver) (resolver : MbResolver) (track : Track) :
    ((find_match d resolver track).1.title = track.title ∧
     (find_match d resolver track).1.album_name = track.album_name ∧
     (find_match d resolver track).1.primary_artist = track.primary_artist ∧
     (find_match d resolver track).1.additional_artists = track.additional_artists ∧
     (find_match d resolver track).1.duration_seconds = track.duration_seconds ∧
     (find_match d resolver track).1.track_number = track.track_number ∧
     (find_match d resolver track).1.release_year = track.release_year ∧
     (find_match d resolver track).1.isrc = track.isrc ∧
     (find_match d resolver track).1.service_id = track.service_id ∧
     (find_match d resolver track).1.service_name = track.service_name ∧
     (find_match d resolver track).1.service_data = track.service_data) ∧
    (pyTruthyS track.musicbrainz_id = true →
      (find_match d resolver track).1.musicbrainz_id = track.musicbrainz_id) := by
  rcases find_match_fst d resolver track with h | h <;> rw [h]
  · exact ⟨⟨rfl, rfl, rfl, rfl, rfl, rfl, rfl, rfl, rfl, rfl, rfl⟩, fun _ => rfl⟩
  · rw [search_with_musicbrainz_id_fst]
    by_cases ht : pyTruthyS track.musicbrainz_id = true
    · rw [if_pos ht]
      exact ⟨⟨rfl, rfl, rfl, rfl, rfl, rfl, rfl, rfl, rfl, rfl, rfl⟩, fun _ => rfl⟩
    · rw [if_neg ht]
      exact ⟨⟨rfl, rfl, rfl, rfl, rfl, rfl, rfl, rfl, rfl, rfl, rfl⟩, fun hx => absurd hx ht⟩

/-- Witness for C9 at a concrete driver and track. -/
theorem claim_C9_frame_effect_witness :
    (((find_match c10Driver noResolver c10Query).1.title = c10Query.title ∧
      (find_match c10Driver noResolver c10Query).1.album_name = c10Query.album_name ∧
      (find_match c10Driver noResolver c10Query).1.primary_artist = c10Query.primary_artist ∧
      (find_match c10Driver noResolver c10Query).1.additional_artists = c10Query.additional_artists ∧
      (find_match c10Driver noResolver c10Query).1.duration_seconds = c10Query.duration_seconds ∧
      (find_match c10Driver noResolver c10Query).1.track_number = c10Query.track_number ∧
      (find_match c10Driver noResolver c10Query).1.release_year = c10Query.release_year ∧
      (find_match c10Driver noResolver c10Query).1.isrc = c10Query.isrc ∧
      (find_match c10Driver noResolver c10Query).1.service_id = c10Query.service_id ∧
      (find_match c10Driver noResolver c10Query).1.service_name = c10Query.service_name ∧
      (find_match c10Driver noResolver c10Query).1.service_data = c10Query.service_data) ∧
     (pyTruthyS c10Query.musicbrainz_id = true →
      (find_match c10Driver noResolver c10Query).1.musicbrainz_id = c10Query.musicbrainz_id)) :=
  claim_C9_frame_effect c10Driver noResolver c10Query

/-- `matches` is antitone in the threshold: a pair accepted at a higher
threshold is accepted at every lower one (the acceptance test is
`ratio ≥ threshold` and all gates are threshold-independent). -/
theorem track_matches_mono (a b : Track) (t1 t2 : ℚ) (hle : t1 ≤ t2)
    (h : track_matches a (some b) t2 = true) : track_matches a (some b) t1 = true := by
  unfold track_matches at h ⊢
  dsimp only at h ⊢
  split_ifs at h ⊢ <;>
    first
      | rfl
      | exact absurd h Bool.false_ne_true
      | exact decide_eq_true (le_trans hle (of_decide_eq_true h))

/-- The lenient fallback only returns candidates confirmed by `matches` at the
lowered `0.60` threshold. -/
theorem lenient_confirms (d : Driver) (track r : Track)
    (h : search_with_lenient_matching d track = Except.ok (some r)) :
    track_matches track (some r) (60 / 100) = true := by
  simp only [search_with_lenient_matching] at h
  split at h
  · simp at h
  · split at h
    · simp at h
    · simp only [Except.ok.injEq] at h
      have hr := List.find?_some h
      exact hr

/-- C10: whenever `find_match` returns a track, the returned track satisfies
the (possibly mbid-updated) query track's `matches` predicate at threshold
`0.60`: strategies 1–4 are confirmed at the default `0.75`, which implies
passing at `0.60` by threshold antitonicity, and the lenient fallback is
confirmed at `0.60` directly. -/
theorem claim_C10_result_confirmed (d : Driver) (resolver : MbResolver)
    (track t' r : Track)
    (h : find_match d resolver track = (t', Except.ok (some r))) :
    track_matches t' (some r) (60 / 100) = true := by
  have h34 : (60 : ℚ) / 100 ≤ 3 / 4 := by norm_num
  unfold find_match at h
  split at h
  next e heq0 => simp at h
  next m0 heq0 =>
  split at h
  next hm0 =>
    simp only [Prod.mk.injEq, Except.ok.injEq] at h
    obtain ⟨ht, hm⟩ := h
    subst ht
    exact track_matches_mono _ _ _ _ h34 (hm ▸ hm0)
  next hm0 =>
  split at h
  next e heq1 => simp at h
  next m1 heq1 =>
  split at h
  next hm1 =>
    simp only [Prod.mk.injEq, Except.ok.injEq] at h
    obtain ⟨ht, hm⟩ := h
    subst ht
    exact track_matches_mono _ _ _ _ h34 (hm ▸ hm1)
  next hm1 =>
  split at h
  next e heq2 => simp at h
  next m2 heq2 =>
  split at h
  next hm2 =>
    simp only [Prod.mk.injEq, Except.ok.injEq] at h
    obtain ⟨ht, hm⟩ := h
    subst ht
    exact track_matches_mono _ _ _ _ h34 (hm ▸ hm2)
  next hm2 =>
  split at h
  next e heq3 => simp at h
  next m3 heq3 =>
  split at h
  next hm3 =>
    simp only [Prod.mk.injEq, Except.ok.injEq] at h
    obtain ⟨ht, hm⟩ := h
    subst ht
    exact track_matches_mono _ _ _ _ h34 (hm ▸ hm3)
  next hm3 =>
  split at h
  next e heq4 => simp at h
  next r0 heq4 =>
    simp only [Prod.mk.injEq, Except.ok.injEq, Option.some.injEq] at h
    obtain ⟨ht, hm⟩ := h
    subst ht
    exact lenient_confirms _ _ _ (hm ▸ heq4)
  next heq4 => simp at h

/-- Witness for C10: a driver resolving the query by direct ISRC lookup. -/
theorem claim_C10_result_confirmed_witness :
    track_matches c10Query (some c10Target) (60 / 100) = true :=
  claim_C10_result_confirmed c10Driver noResolver c10Query c10Query c10Target rfl

/-- `syncRebuild` issues at most one `add` call, and any `add` call it issues
targets the requested playlist with exactly the desired order's service ids
(and only when the desired order is non-empty). -/
theorem syncRebuild_adds (tgt : ServiceDriver) (tpid : PyStr) (targetTracks desired : List Track) :
    ((syncRebuild tgt tpid targetTracks desired).1.countP MutationCall.isAdd ≤ 1) ∧
    (∀ pid ids, MutationCall.add pid ids ∈ (syncRebuild tgt tpid targetTracks desired).1 →
      pid = tpid ∧ ids = desired.map Track.service_id ∧ desired.isEmpty = false) := by
  unfold syncRebuild
  dsimp only
  split
  · -- removal propagated a non-unsupported failure: only the remove log
    constructor
    · split <;> simp [List.countP, List.countP.go, MutationCall.isAdd]
    · intro pid ids hmem
      split at hmem <;> simp [MutationCall.isAdd] at hmem
  · -- removal succeeded or was swallowed
    by_cases hd : desired.isEmpty = true
    · rw [if_pos hd]
      constructor
      · split <;> simp [List.countP, List.countP.go, MutationCall.isAdd]
      · intro pid ids hmem
        split at hmem <;> simp [MutationCall.isAdd] at hmem
    · rw [if_neg hd]
      constructor
      · split <;>
          simp [List.countP, List.countP.go, MutationCall.isAdd]
      · intro pid ids hmem
        rw [List.mem_append] at hmem
        rcases hmem with hmem | hmem
        · split at hmem <;> simp at hmem
        · simp only [List.mem_singleton, MutationCall.add.injEq] at hmem
          exact ⟨hmem.1, hmem.2, Bool.not_eq_true _ ▸ hd⟩

/-- `sync` reduces to `syncRebuild` once both playlist fetches and the
resolution loop succeed. -/
theorem sync_eq_rebuild (src tgt : ServiceDriver) (resolver : MbResolver)
    (spid tpid : PyStr) (sourceTracks targetTracks desired : List Track)
    (h1 : src.get_playlist_tracks spid = Except.ok sourceTracks)
    (h2 : tgt.get_playlist_tracks tpid = Except.ok targetTracks)
    (h3 : buildDesired tgt.toDriver resolver targetTracks sourceTracks = Except.ok desired) :
    sync src tgt resolver spid tpid = syncRebuild tgt tpid targetTracks desired := by
  unfold sync
  rw [h1]
  dsimp only
  rw [h2]
  dsimp only
  rw [h3]

/-- An errored playlist fetch or resolution loop issues no mutation calls. -/
theorem sync_error_empty_log (src tgt : ServiceDriver) (resolver : MbResolver)
    (spid tpid : PyStr)
    (h : ∀ sourceTracks targetTracks desired,
      src.get_playlist_tracks spid = Except.ok sourceTracks →
      tgt.get_playlist_tracks tpid = Except.ok targetTracks →
      buildDesired tgt.toDriver resolver targetTracks sourceTracks ≠ Except.ok desired) :
    (sync src tgt resolver spid tpid).1 = [] := by
  unfold sync
  cases h1 : src.get_playlist_tracks spid with
  | error e => rfl
  | ok sourceTracks =>
    dsimp only
    cases h2 : tgt.get_playlist_tracks tpid with
    | error e => rfl
    | ok targetTracks =>
      dsimp only
      cases h3 : buildDesired tgt.toDriver resolver targetTracks sourceTracks with
      | error e => rfl
      | ok desired => exact absurd h3 (h sourceTracks targetTracks desired h1 h2)

/-- C7: in every execution of `sync`, `add_tracks_to_playlist` is invoked at
most once; any `add` call carries exactly the service ids of the resolved
counterparts of the source tracks in source order with unresolved entries
omitted (the `buildDesired` loop); and when the clearing removal raises
`UnsupportedFeatureException` the exception is swallowed and the single `add`
call still proceeds. -/
theorem claim_C7_sync_rebuild (src tgt : ServiceDriver) (resolver : MbResolver)
    (spid tpid : PyStr) :
    ((sync src tgt resolver spid tpid).1.countP MutationCall.isAdd ≤ 1) ∧
    (∀ pid ids, MutationCall.add pid ids ∈ (sync src tgt resolver spid tpid).1 →
      pid = tpid ∧ ∃ sourceTracks targetTracks desired,
        src.get_playlist_tracks spid = Except.ok sourceTracks ∧
        tgt.get_playlist_tracks tpid = Except.ok targetTracks ∧
        buildDesired tgt.toDriver resolver targetTracks sourceTracks = Except.ok desired ∧
        desired.isEmpty = false ∧ ids = desired.map Track.service_id) ∧
    (∀ sourceTracks targetTracks desired,
      src.get_playlist_tracks spid = Except.ok sourceTracks →
      tgt.get_playlist_tracks tpid = Except.ok targetTracks →
      buildDesired tgt.toDriver resolver targetTracks sourceTracks = Except.ok desired →
      targetTracks.isEmpty = false →
      tgt.remove_tracks_from_playlist tpid (targetTracks.map Track.service_id)
        = Except.error DriverError.unsupported →
      desired.isEmpty = false →
      sync src tgt resolver spid tpid
        = ([MutationCall.remove tpid (targetTracks.map Track.service_id),
            MutationCall.add tpid (desired.map Track.service_id)],
           tgt.add_tracks_to_playlist tpid (desired.map Track.service_id))) := by
  refine ⟨?_, ?_, ?_⟩
  · -- at most one add call
    cases h1 : src.get_playlist_tracks spid with
    | error e =>
      have : (sync src tgt resolver spid tpid).1 = [] := by
        unfold sync; rw [h1]
      rw [this]; simp [List.countP, List.countP.go]
    | ok sourceTracks =>
      cases h2 : tgt.get_playlist_tracks tpid with
      | error e =>
        have : (sync src tgt resolver spid tpid).1 = [] := by
          unfold sync; rw [h1]; dsimp only; rw [h2]
        rw [this]; simp [List.countP, List.countP.go]
      | ok targetTracks =>
        cases h3 : buildDesired tgt.toDriver resolver targetTracks sourceTracks with
        | error e =>
          have : (sync src tgt resolver spid tpid).1 = [] := by
            unfold sync; rw [h1]; dsimp only; rw [h2]; dsimp only; rw [h3]
          rw [this]; simp [List.countP, List.countP.go]
        | ok desired =>
          rw [sync_eq_rebuild src tgt resolver spid tpid sourceTracks targetTracks desired h1 h2 h3]
          exact (syncRebuild_adds tgt tpid targetTracks desired).1
  · -- any add call is the rebuild call
    intro pid ids hmem
    cases h1 : src.get_playlist_tracks spid with
    | error e =>
      have : (sync src tgt resolver spid tpid).1 = [] := by
        unfold sync; rw [h1]
      rw [this] at hmem; simp at hmem
    | ok sourceTracks =>
      cases h2 : tgt.get_playlist_tracks tpid with
      | error e =>
        have : (sync src tgt resolver spid tpid).1 = [] := by
          unfold sync; rw [h1]; dsimp only; rw [h2]
        rw [this] at hmem; simp at hmem
      | ok targetTracks =>
        cases h3 : buildDesired tgt.toDriver resolver targetTracks sourceTracks with
        | error e =>
          have : (sync src tgt resolver spid tpid).1 = [] := by
            unfold sync; rw [h1]; dsimp only; rw [h2]; dsimp only; rw [h3]
          rw [this] at hmem; simp at hmem
        | ok desired =>
          rw [sync_eq_rebuild src tgt resolver spid tpid sourceTracks targetTracks desired h1 h2 h3] at hmem
          obtain ⟨hpid, hids, hne⟩ := (syncRebuild_adds tgt tpid targetTracks desired).2 pid ids hmem
          exact ⟨hpid, sourceTracks, targetTracks, desired, rfl, rfl, h3, hne, hids⟩
  · -- unsupported removal is swallowed and the add still proceeds
    intro sourceTracks targetTracks desired h1 h2 h3 htne hrem hdne
    rw [sync_eq_rebuild src tgt resolver spid tpid sourceTracks targetTracks desired h1 h2 h3]
    unfold syncRebuild
    dsimp only
    rw [if_neg (by simp [htne]), if_neg (by simp [htne]), hrem]
    dsimp only
    rw [if_neg (by simp [hdne])]
    rfl

/-- Witness for C7: concrete drivers where the target's removal capability is
unsupported; the rebuild still issues the single `add` call with the resolved
order. -/
theorem claim_C7_sync_rebuild_witness :
    sync c7Src c7Tgt noResolver ['s'] ['t']
      = ([MutationCall.remove ['t'] ([c7TargetTrack].map Track.service_id),
          MutationCall.add ['t'] ([c7TargetTrack].map Track.service_id)],
         c7Tgt.add_tracks_to_playlist ['t'] ([c7TargetTrack].map Track.service_id)) :=
  (claim_C7_sync_rebuild c7Src c7Tgt noResolver ['s'] ['t']).2.2
    [c7SourceTrack] [c7TargetTrack] [c7TargetTrack] rfl rfl rfl rfl rfl rfl

/-- `Char.ofNat` round-trips on the ASCII range. -/
theorem charOfNat_toNat (n : Nat) (h : n < 128) : (Char.ofNat n).toNat = n := by
  have hv : n.isValidChar := Or.inl (by omega)
  simp [Char.ofNat, Char.ofNatAux, Char.toNat, hv, UInt32.toNat, BitVec.toNat_ofNatLt]

/-- Lower-casing a character is idempotent. -/
theorem pyLowerChar_idem (c : Char) : pyLowerChar (pyLowerChar c) = pyLowerChar c := by
  unfold pyLowerChar
  by_cases h : 65 ≤ c.toNat ∧ c.toNat ≤ 90
  · rw [if_pos h]
    have h2 : (Char.ofNat (c.toNat + 32)).toNat = c.toNat + 32 :=
      charOfNat_toNat _ (by omega)
    rw [if_neg (by rw [h2]; omega)]
  · rw [if_neg h, if_neg h]

/-- The output of `str.lower` is already lower-case. -/
theorem pyLower_lowerFixed (l : PyStr) : lowerFixed (pyLower l) := by
  intro c hc
  obtain ⟨c0, _, rfl⟩ := List.mem_map.mp hc
  exact pyLowerChar_idem c0

/-- Characters of a replacement result come from the input or from the
replacement string. -/
theorem mem_replaceFuel (old new : PyStr) : ∀ (fuel : Nat) (l : PyStr) (c : Char),
    c ∈ replaceFuel old new fuel l → c ∈ l ∨ c ∈ new := by
  intro fuel
  induction fuel with
  | zero =>
    intro l c h
    cases l with
    | nil => simp [replaceFuel] at h
    | cons a t => exact Or.inl (by simpa [replaceFuel] using h)
  | succ fuel ih =>
    intro l c h
    cases l with
    | nil => simp [replaceFuel] at h
    | cons a t =>
      rw [replaceFuel] at h
      by_cases hc : old.isPrefixOf (a :: t) ∧ ¬old.isEmpty
      · rw [if_pos hc] at h
        rcases List.mem_append.mp h with h | h
        · exact Or.inr h
        · rcases ih _ _ h with h | h
          · exact Or.inl (List.mem_cons_of_mem a (List.drop_subset _ _ h))
          · exact Or.inr h
      · rw [if_neg hc] at h
        rcases List.mem_cons.mp h with h | h
        · exact Or.inl (h ▸ List.mem_cons_self a t)
        · rcases ih _ _ h with h | h
          · exact Or.inl (List.mem_cons_of_mem a h)
          · exact Or.inr h

/-- Characters of `str.replace` output come from the input or the replacement. -/
theorem mem_pyReplace (l old new : PyStr) (c : Char)
    (h : c ∈ pyReplace l old new) : c ∈ l ∨ c ∈ new :=
  mem_replaceFuel old new l.length l c h

/-- One step of `__apply_substitutions`. -/
theorem applySubsts_cons (p : PyStr × PyStr) (ps : List (PyStr × PyStr)) (l : PyStr) :
    applySubsts (p :: ps) l = applySubsts ps (pyReplace l p.1 p.2) := rfl

/-- Characters of a substitution-pass output come from the input or from one of
the table's replacement strings. -/
theorem mem_applySubsts : ∀ (tbl : List (PyStr × PyStr)) (l : PyStr) (c : Char),
    c ∈ applySubsts tbl l → c ∈ l ∨ ∃ p ∈ tbl, c ∈ p.2 := by
  intro tbl
  induction tbl with
  | nil => intro l c h; exact Or.inl h
  | cons p ps ih =>
    intro l c h
    rw [applySubsts_cons] at h
    rcases ih _ _ h with h | ⟨q, hq, hcq⟩
    · rcases mem_pyReplace _ _ _ _ h with h | h
      · exact Or.inl h
      · exact Or.inr ⟨p, List.mem_cons_self p ps, h⟩
    · exact Or.inr ⟨q, List.mem_cons_of_mem p hq, hcq⟩

/-- Lower-caseness is preserved by a substitution pass whose replacement
strings are lower-case. -/
theorem lowerFixed_applySubsts (tbl : List (PyStr × PyStr)) (l : PyStr)
    (htbl : ∀ p ∈ tbl, ∀ c ∈ p.2, pyLowerChar c = c) (hl : lowerFixed l) :
    lowerFixed (applySubsts tbl l) := by
  intro c hc
  rcases mem_applySubsts tbl l c hc with h | ⟨p, hp, hcp⟩
  · exact hl c h
  · exact htbl p hp c hcp

/-- Lower-caseness is preserved by the full substitution pipeline (all
replacement strings are `' '`, `''`, or `and`). -/
theorem lowerFixed_applyAllSubsts (l : PyStr) (hl : lowerFixed l) :
    lowerFixed (applyAllSubsts l) := by
  unfold applyAllSubsts
  apply lowerFixed_applySubsts _ _ (by decide)
  apply lowerFixed_applySubsts _ _ (by decide)
  apply lowerFixed_applySubsts _ _ (by decide)
  apply lowerFixed_applySubsts _ _ (by decide)
  exact hl

/-- `str.strip` only removes characters. -/
theorem mem_pyStrip (l : PyStr) (c : Char) (h : c ∈ pyStrip l) : c ∈ l := by
  unfold pyStrip at h
  rw [List.mem_reverse] at h
  have h2 := (List.dropWhile_sublist (l := (l.dropWhile pyIsWs).reverse) pyIsWs).subset h
  rw [List.mem_reverse] at h2
  exact (List.dropWhile_sublist (l := l) pyIsWs).subset h2

/-- Characters of the words of `str.split()` come from the input or the
accumulator. -/
theorem mem_pySplitAux : ∀ (l acc : PyStr) (w : PyStr) (c : Char),
    w ∈ pySplitAux l acc → c ∈ w → c ∈ l ∨ c ∈ acc := by
  intro l
  induction l with
  | nil =>
    intro acc w c hw hc
    rw [pySplitAux] at hw
    by_cases ha : acc.isEmpty = true
    · rw [if_pos ha] at hw; simp at hw
    · rw [if_neg ha] at hw
      rw [List.mem_singleton] at hw
      subst hw
      exact Or.inr (List.mem_reverse.mp hc)
  | cons a t ih =>
    intro acc w c hw hc
    rw [pySplitAux] at hw
    by_cases hws : pyIsWs a = true
    · rw [if_pos hws] at hw
      by_cases ha : acc.isEmpty = true
      · rw [if_pos ha] at hw
        rcases ih [] w c hw hc with h | h
        · exact Or.inl (List.mem_cons_of_mem a h)
        · simp at h
      · rw [if_neg ha] at hw
        rcases List.mem_cons.mp hw with hw | hw
        · subst hw
          exact Or.inr (List.mem_reverse.mp hc)
        · rcases ih [] w c hw hc with h | h
          · exact Or.inl (List.mem_cons_of_mem a h)
          · simp at h
    · rw [if_neg hws] at hw
      rcases ih (a :: acc) w c hw hc with h | h
      · exact Or.inl (List.mem_cons_of_mem a h)
      · rcases List.mem_cons.mp h with h | h
        · exact Or.inl (h ▸ List.mem_cons_self a t)
        · exact Or.inr h

/-- Characters of `' '.join ws` are spaces or come from the words. -/
theorem mem_joinWords : ∀ (ws : List PyStr) (c : Char),
    c ∈ joinWords ws → c = ' ' ∨ ∃ w ∈ ws, c ∈ w := by
  intro ws
  induction ws with
  | nil => intro c h; simp [joinWords] at h
  | cons w ws' ih =>
    intro c h
    cases ws' with
    | nil =>
      exact Or.inr ⟨w, List.mem_cons_self w [], h⟩
    | cons w2 ws'' =>
      have hj : joinWords (w :: w2 :: ws'') = w ++ ' ' :: joinWords (w2 :: ws'') := rfl
      rw [hj] at h
      rcases List.mem_append.mp h with h | h
      · exact Or.inr ⟨w, List.mem_cons_self _ _, h⟩
      · rcases List.mem_cons.mp h with h | h
        · exact Or.inl h
        · rcases ih c h with h | ⟨w', hw', hcw'⟩
          · exact Or.inl h
          · exact Or.inr ⟨w', List.mem_cons_of_mem w hw', hcw'⟩

/-- Every character of `clean_str`'s output is lower-case. -/
theorem lowerFixed_cleanChars (l : PyStr) : lowerFixed (cleanChars l) := by
  unfold cleanChars
  by_cases he : l.isEmpty = true
  · rw [if_pos he]; intro c hc; simp at hc
  · rw [if_neg he]
    intro c hc
    unfold pyNormWs at hc
    rcases mem_joinWords _ c hc with rfl | ⟨w, hw, hcw⟩
    · decide
    · rcases mem_pySplitAux _ [] w c hw hcw with h | h
      · have h2 : lowerFixed (applyAllSubsts (pyStrip (pyLower l))) := by
          apply lowerFixed_applyAllSubsts
          intro c' hc'
          exact pyLower_lowerFixed l c' (mem_pyStrip _ _ hc')
        exact h2 c h
      · simp at h

/-- A string all of whose characters are lower-case is fixed by `str.lower`. -/
theorem pyLower_eq_self (l : PyStr) (h : lowerFixed l) : pyLower l = l := by
  unfold pyLower
  rw [List.map_congr_left h]
  simp

/-- `clean_str` output is fixed by `str.lower`. -/
theorem pyLower_cleanChars (l : PyStr) : pyLower (cleanChars l) = cleanChars l :=
  pyLower_eq_self _ (lowerFixed_cleanChars l)

/-- Words produced by `str.split()` are non-empty and whitespace-free. -/
theorem pySplitAux_wordOk : ∀ (l acc : PyStr), (∀ c ∈ acc, pyIsWs c = false) →
    ∀ w ∈ pySplitAux l acc, wordOk w := by
  intro l
  induction l with
  | nil =>
    intro acc hacc w hw
    rw [pySplitAux] at hw
    by_cases ha : acc.isEmpty = true
    · rw [if_pos ha] at hw; simp at hw
    · rw [if_neg ha] at hw
      rw [List.mem_singleton] at hw
      subst hw
      refine ⟨?_, ?_⟩
      · intro hrev
        apply ha
        rw [List.isEmpty_iff]
        simpa using congrArg List.reverse hrev
      · intro c hc
        exact hacc c (List.mem_reverse.mp hc)
  | cons a t ih =>
    intro acc hacc w hw
    rw [pySplitAux] at hw
    by_cases hws : pyIsWs a = true
    · rw [if_pos hws] at hw
      by_cases ha : acc.isEmpty = true
      · rw [if_pos ha] at hw
        exact ih [] (by simp) w hw
      · rw [if_neg ha] at hw
        rcases List.mem_cons.mp hw with hw | hw
        · subst hw
          refine ⟨?_, ?_⟩
          · intro hrev
            apply ha
            rw [List.isEmpty_iff]
            simpa using congrArg List.reverse hrev
          · intro c hc
            exact hacc c (List.mem_reverse.mp hc)
        · exact ih [] (by simp) w hw
    · rw [if_neg hws] at hw
      refine ih (a :: acc) ?_ w hw
      intro c hc
      rcases List.mem_cons.mp hc with rfl | hc
      · exact Bool.eq_false_iff.mpr hws
      · exact hacc c hc

/-- Words of `str.split()` (with an empty accumulator). -/
theorem pySplit_wordOk (l : PyStr) : ∀ w ∈ pySplit l, wordOk w :=
  pySplitAux_wordOk l [] (by simp)

/-- Processing a whitespace-free word prefix just accumulates it, reversed. -/
theorem pySplitAux_append_word : ∀ (w l acc : PyStr),
    (∀ c ∈ w, pyIsWs c = false) →
    pySplitAux (w ++ l) acc = pySplitAux l (w.reverse ++ acc) := by
  intro w
  induction w with
  | nil => intro l acc _; simp
  | cons c w' ih =>
    intro l acc hw
    have hc : pyIsWs c = false := hw c (List.mem_cons_self _ _)
    rw [List.cons_append, pySplitAux, hc]
    simp only [Bool.false_eq_true, if_false]
    rw [ih l (c :: acc) (fun x hx => hw x (List.mem_cons_of_mem c hx))]
    simp [List.append_assoc]

/-- Processing a space flushes the accumulated word. -/
theorem pySplitAux_space (l acc : PyStr) :
    pySplitAux (' ' :: l) acc
      = if acc.isEmpty then pySplitAux l [] else acc.reverse :: pySplitAux l [] := by
  rw [pySplitAux]
  have h : pyIsWs ' ' = true := by decide
  rw [h]
  simp

/-- `str.split()` is a left inverse of `' '.join` on lists of non-empty,
whitespace-free words. -/
theorem pySplit_joinWords : ∀ (ws : List PyStr), (∀ w ∈ ws, wordOk w) →
    pySplit (joinWords ws) = ws := by
  intro ws
  induction ws with
  | nil => intro _; rfl
  | cons w ws' ih =>
    intro hok
    have hw : wordOk w := hok w (List.mem_cons_self _ _)
    cases ws' with
    | nil =>
      show pySplitAux (joinWords [w]) [] = [w]
      have hj : joinWords [w] = w := rfl
      have h1 : pySplitAux (w ++ []) [] = pySplitAux [] (w.reverse ++ []) :=
        pySplitAux_append_word w [] [] hw.2
      rw [List.append_nil, List.append_nil] at h1
      rw [hj, h1, pySplitAux]
      simp [List.isEmpty_iff, hw.1]
    | cons w2 ws'' =>
      show pySplitAux (joinWords (w :: w2 :: ws'')) [] = w :: w2 :: ws''
      have hj : joinWords (w :: w2 :: ws'') = w ++ ' ' :: joinWords (w2 :: ws'') := rfl
      rw [hj, pySplitAux_append_word w _ [] hw.2, List.append_nil, pySplitAux_space]
      rw [if_neg (by simp [List.isEmpty_iff, hw.1])]
      rw [List.reverse_reverse]
      congr 1
      exact ih (fun x hx => hok x (List.mem_cons_of_mem w hx))

/-- `__normalize_whitespace` is idempotent. -/
theorem pyNormWs_idem (l : PyStr) : pyNormWs (pyNormWs l) = pyNormWs l := by
  unfold pyNormWs
  rw [pySplit_joinWords (pySplit l) (pySplit_wordOk l)]

/-- `str.strip` fixes a string whose first and last characters are not
whitespace. -/
theorem pyStrip_eq_self (m : PyStr)
    (h1 : ∀ c t, m = c :: t → pyIsWs c = false)
    (h2 : ∀ c t, m.reverse = c :: t → pyIsWs c = false) :
    pyStrip m = m := by
  cases m with
  | nil => rfl
  | cons a t =>
    have ha : pyIsWs a = false := h1 a t rfl
    unfold pyStrip
    rw [List.dropWhile_cons, ha]
    simp only [Bool.false_eq_true, if_false]
    cases hr : (a :: t).reverse with
    | nil => simp at hr
    | cons b r =>
      have hb : pyIsWs b = false := h2 b r hr
      rw [List.dropWhile_cons, hb]
      simp only [Bool.false_eq_true, if_false]
      rw [← hr, List.reverse_reverse]

/-- The first character of a word join is the first word's first character. -/
theorem joinWords_head (w : PyStr) (ws : List PyStr) (hw : wordOk w) :
    ∃ c t, joinWords (w :: ws) = c :: t ∧ pyIsWs c = false := by
  obtain ⟨c, w', rfl⟩ := List.exists_cons_of_ne_nil hw.1
  have hc : pyIsWs c = false := hw.2 c (List.mem_cons_self _ _)
  cases ws with
  | nil => exact ⟨c, w', rfl, hc⟩
  | cons w2 ws' => exact ⟨c, w' ++ ' ' :: joinWords (w2 :: ws'), rfl, hc⟩

/-- The last character of a word join is the last word's last character. -/
theorem joinWords_last : ∀ (ws : List PyStr), (∀ w ∈ ws, wordOk w) → ws ≠ [] →
    ∃ c t, (joinWords ws).reverse = c :: t ∧ pyIsWs c = false := by
  intro ws
  induction ws with
  | nil => intro _ h; exact absurd rfl h
  | cons w ws' ih =>
    intro hok _
    cases ws' with
    | nil =>
      have hw : wordOk w := hok w (List.mem_cons_self _ _)
      obtain ⟨c, t, hct⟩ := List.exists_cons_of_ne_nil
        (show w.reverse ≠ [] by simp [hw.1])
      refine ⟨c, t, hct, ?_⟩
      have hcw : c ∈ w.reverse := hct ▸ List.mem_cons_self c t
      exact hw.2 c (List.mem_reverse.mp hcw)
    | cons w2 ws'' =>
      obtain ⟨c, t, hct, hc⟩ := ih (fun x hx => hok x (List.mem_cons_of_mem w hx)) (by simp)
      have hj : joinWords (w :: w2 :: ws'') = w ++ ' ' :: joinWords (w2 :: ws'') := rfl
      refine ⟨c, t ++ ' ' :: w.reverse, ?_, hc⟩
      rw [hj]
      simp [List.reverse_append, hct, List.append_assoc]

/-- `str.strip` fixes normalized-whitespace strings. -/
theorem pyStrip_pyNormWs (l : PyStr) : pyStrip (pyNormWs l) = pyNormWs l := by
  unfold pyNormWs
  cases hws : pySplit l with
  | nil => rfl
  | cons w ws' =>
    have hok : ∀ x ∈ pySplit l, wordOk x := pySplit_wordOk l
    rw [hws] at hok
    apply pyStrip_eq_self
    · intro c t hct
      obtain ⟨c', t', hct', hc'⟩ := joinWords_head w ws' (hok w (List.mem_cons_self _ _))
      rw [hct'] at hct
      injection hct with hcc _
      exact hcc ▸ hc'
    · intro c t hct
      obtain ⟨c', t', hct', hc'⟩ := joinWords_last (w :: ws') hok (by simp)
      rw [hct'] at hct
      injection hct with hcc _
      exact hcc ▸ hc'

/-- `str.strip` fixes `clean_str` output. -/
theorem pyStrip_cleanChars (l : PyStr) : pyStrip (cleanChars l) = cleanChars l := by
  unfold cleanChars
  by_cases he : l.isEmpty = true
  · rw [if_pos he]; rfl
  · rw [if_neg he]; exact pyStrip_pyNormWs _

/-- Whitespace normalization fixes `clean_str` output. -/
theorem pyNormWs_cleanChars (l : PyStr) : pyNormWs (cleanChars l) = cleanChars l := by
  unfold cleanChars
  by_cases he : l.isEmpty = true
  · rw [if_pos he]; rfl
  · rw [if_neg he]; exact pyNormWs_idem _

/-- C3 counterexample: `clean_str` is not idempotent.  Cleaning `f!t` removes
the `!` (punctuation pass), producing `ft`; cleaning `ft` again triggers the
`ft` credit-word rule of `ARTIST_FEATURES` and yields the empty string. -/
theorem claim_C3_counterexample :
    clean_str (some (clean_str (some ['f', '!', 't']))) ≠ clean_str (some ['f', '!', 't']) := by
  decide

/-- C3 (amended): `clean_str(None)` and `clean_str('')` yield the empty
string, and `clean_str` is idempotent on every input whose cleaned form is
left unchanged by the substitution tables — the lower-casing, stripping and
whitespace-collapsing passes always fix `clean_str` output, so only a
substitution key re-created by earlier character removals (e.g. `"f!t"` →
`"ft"` → `""`) can break idempotence. -/
theorem claim_C3_guarded_idempotence (s : Option PyStr)
    (h : applyAllSubsts (clean_str s) = clean_str s) :
    clean_str (some (clean_str s)) = clean_str s := by
  cases s with
  | none => rfl
  | some x =>
    show cleanChars (cleanChars x) = cleanChars x
    have h' : applyAllSubsts (cleanChars x) = cleanChars x := h
    by_cases hx : (cleanChars x).isEmpty = true
    · rw [List.isEmpty_iff.mp hx]
      rfl
    · conv_lhs => rw [cleanChars]
      rw [if_neg hx, pyLower_cleanChars, pyStrip_cleanChars, h', pyNormWs_cleanChars]

/-- Witness for C3 (amended) at a concrete input whose cleaned form contains
no substitution key. -/
theorem claim_C3_guarded_idempotence_witness :
    clean_str (some (clean_str (some ['a', 'b', ' ', 'c']))) = clean_str (some ['a', 'b', ' ', 'c']) :=
  claim_C3_guarded_idempotence (some ['a', 'b', ' ', 'c']) (by decide)

end Tunesynctool
